import Mathlib

/-!
Verification development for the partial-rendering engine of
`internal/core/item_rendering.rs` (Slint).

Intinates (`Int`, `f32` in the source) are modelled as exact integers
(`Int`):
every operation the verified algorithms perform on coordinates (comparison,
`min`, `max`, addition, subtraction, multiplication) is modelled exactly;
floating-point rounding and non-finite values are outside the model.

Geometry primitives (`Box2D`, `Rect` and their operations) follow the
`euclid` crate used by the source: boxes carry `min`/`max` corners, rects an
`origin` and a `size`, emptiness means a non-positive extent in some axis,
and `contains_box` is true for every empty argument.
-/

/-- Axis-aligned box given by its two corners (euclid `Box2D`). -/
structure Box2D where
  minX : Int
  minY : Int
  maxX : Int
  maxY : Int
deriving DecidableEq

instance : Inhabited Box2D := ⟨⟨0, 0, 0, 0⟩⟩

/-- euclid `Box2D::is_empty`: `!(max.x > min.x && max.y > min.y)`. -/
def Box2D.is_empty (b : Box2D) : Bool :=
  !(decide (b.minX < b.maxX) && decide (b.minY < b.maxY))

/-- euclid `Box2D::contains_box`: true whenever `o` is empty, otherwise
coordinate-wise containment. -/
def Box2D.contains_box (s o : Box2D) : Bool :=
  o.is_empty ||
    (decide (s.minX ≤ o.minX) && decide (o.maxX ≤ s.maxX) &&
     decide (s.minY ≤ o.minY) && decide (o.maxY ≤ s.maxY))

/-- euclid `Box2D::union`: if either box is empty the other is returned,
otherwise the coordinate-wise hull. -/
def Box2D.union (s o : Box2D) : Box2D :=
  if o.is_empty then s
  else if s.is_empty then o
  else ⟨min s.minX o.minX, min s.minY o.minY, max s.maxX o.maxX, max s.maxY o.maxY⟩

/-- euclid `Box2D::area` (`size().area()` = width × height). -/
def Box2D.area (b : Box2D) : Int :=
  (b.maxX - b.minX) * (b.maxY - b.minY)

/-- euclid `Box2D::intersection_unchecked`: coordinate-wise intersection,
possibly an inverted (empty) box. -/
def Box2D.intersection_unchecked (s o : Box2D) : Box2D :=
  ⟨max s.minX o.minX, max s.minY o.minY, min s.maxX o.maxX, min s.maxY o.maxY⟩

/-- euclid `Box2D::intersection`: `None` when the intersection is empty. -/
def Box2D.intersection (s o : Box2D) : Option Box2D :=
  let b := s.intersection_unchecked o
  if b.is_empty then none else some b

/-- euclid `Box2D::intersects`: strict overlap on both axes. -/
def Box2D.intersects (s o : Box2D) : Bool :=
  decide (s.minX < o.maxX) && decide (o.minX < s.maxX) &&
  decide (s.minY < o.maxY) && decide (o.minY < s.maxY)

/-- Logical rectangle (euclid `Rect`): origin plus size. -/
structure LogicalRect where
  x : Int
  y : Int
  width : Int
  height : Int
deriving DecidableEq

instance : Inhabited LogicalRect := ⟨⟨0, 0, 0, 0⟩⟩

/-- euclid `Rect::to_box2d`: `min = origin`, `max = origin + size`. -/
def LogicalRect.to_box2d (r : LogicalRect) : Box2D :=
  ⟨r.x, r.y, r.x + r.width, r.y + r.height⟩

/-- euclid `Box2D::to_rect`. -/
def Box2D.to_rect (b : Box2D) : LogicalRect :=
  ⟨b.minX, b.minY, b.maxX - b.minX, b.maxY - b.minY⟩

/-- euclid `Rect::is_empty`: some size component is non-positive. -/
def LogicalRect.is_empty (r : LogicalRect) : Bool :=
  !(decide (0 < r.width) && decide (0 < r.height))

/-- euclid `Rect::contains_rect`: true whenever the argument is empty,
otherwise coordinate-wise containment. -/
def LogicalRect.contains_rect (s o : LogicalRect) : Bool :=
  o.is_empty ||
    (decide (s.x ≤ o.x) && decide (o.x + o.width ≤ s.x + s.width) &&
     decide (s.y ≤ o.y) && decide (o.y + o.height ≤ s.y + s.height))

/-- euclid `Rect::intersection`: via boxes, `None` when empty. -/
def LogicalRect.intersection (s o : LogicalRect) : Option LogicalRect :=
  (s.to_box2d.intersection o.to_box2d).map Box2D.to_rect

/-- euclid `Rect::union`: if either rect is empty the other is returned,
otherwise the hull via boxes. -/
def LogicalRect.union (s o : LogicalRect) : LogicalRect :=
  if s.is_empty then o
  else if o.is_empty then s
  else (s.to_box2d.union o.to_box2d).to_rect

/-- euclid `Rect::from_size`: rectangle at the origin. -/
def LogicalRect.from_size (w h : Int) : LogicalRect := ⟨0, 0, w, h⟩

/-- `DirtyRegion`: bounded-count union of boxes. Only the live prefix of the
fixed-size array (`rectangles[0..count]`) is observable, so it is modelled as
a list; the source's `swap`-based removals are reproduced on the list. -/
structure DirtyRegion where
  rectangles : List Box2D
deriving DecidableEq

instance : Inhabited DirtyRegion := ⟨⟨[]⟩⟩

/-- `DirtyRegion::MAX_COUNT`. -/
def DirtyRegion.MAX_COUNT : Nat := 3

/-- The `while i < self.count` loop at the start of `DirtyRegion::add_box`:
returns `none` when a stored box already contains `b` (early return), and
otherwise the stored list with every box contained in `b` removed, using the
source's `swap(i, count - 1); count -= 1` removal (replace slot `i` by the
last live box and shrink). `fuel` bounds the iteration count; it is
initialised with the list length, which the loop never exceeds since each
step either advances `i` or shrinks the list. -/
def DirtyRegion.addBoxLoop (b : Box2D) : Nat → List Box2D → Nat → Option (List Box2D)
  | 0, l, _ => some l
  | Nat.succ fuel, l, i =>
    if i < l.length then
      let r := l.getD i default
      if r.contains_box b then none
      else if b.contains_box r then
        DirtyRegion.addBoxLoop b fuel ((l.set i (l.getLast?.getD default)).dropLast) i
      else
        DirtyRegion.addBoxLoop b fuel l (i + 1)
    else some l

/-- The per-index area growth examined by `add_box`'s merge branch:
`rectangles[i].union(&b).area() - rectangles[i].area()`. -/
def DirtyRegion.growth (l : List Box2D) (b : Box2D) (i : Nat) : Int :=
  ((l.getD i default).union b).area - (l.getD i default).area

/-- The list `(0..count).map(|i| (i, growth i))` built by `add_box`. -/
def DirtyRegion.growthList (l : List Box2D) (b : Box2D) : List (Nat × Int) :=
  (List.range l.length).map fun i => (i, DirtyRegion.growth l b i)

/-- Rust `Iterator::min_by` with comparison on the second component: folds
keeping the accumulator unless the next element is strictly smaller, hence
returning the first minimum; `none` on an empty list. The source compares
with `partial_cmp(..).unwrap()`; on exact coordinates the comparison is
total. -/
def minByFirst (ps : List (Nat × Int)) : Option (Nat × Int) :=
  match ps with
  | [] => none
  | p :: tl => some (tl.foldl (fun acc q => if acc.2 > q.2 then q else acc) p)

/-- `DirtyRegion::add_box`. The final `none` arm models the source's
`.expect("There should always be rectangles")` panic; it is proved
unreachable. -/
def DirtyRegion.add_box (self : DirtyRegion) (b : Box2D) : DirtyRegion :=
  if b.is_empty then self
  else
    match DirtyRegion.addBoxLoop b self.rectangles.length self.rectangles 0 with
    | none => self
    | some l =>
      if l.length < DirtyRegion.MAX_COUNT then ⟨l ++ [b]⟩
      else
        match minByFirst (DirtyRegion.growthList l b) with
        | some best => ⟨l.set best.1 ((l.getD best.1 default).union b)⟩
        | none => self

/-- `DirtyRegion::add_rect`. -/
def DirtyRegion.add_rect (self : DirtyRegion) (rect : LogicalRect) : DirtyRegion :=
  self.add_box rect.to_box2d

/-- `DirtyRegion::union`: fold `add_box` over the other region's boxes. -/
def DirtyRegion.union (self other : DirtyRegion) : DirtyRegion :=
  other.rectangles.foldl DirtyRegion.add_box self

/-- The box-level bounding rectangle of a region: the default (zero) rect for
an empty region, otherwise the running union of all stored boxes. -/
def DirtyRegion.boundingBox (self : DirtyRegion) : Box2D :=
  match self.rectangles with
  | [] => default
  | r :: tl => tl.foldl Box2D.union r

/-- `DirtyRegion::bounding_rect`. -/
def DirtyRegion.bounding_rect (self : DirtyRegion) : LogicalRect :=
  self.boundingBox.to_rect

/-- The loop of `DirtyRegion::intersection`: each stored box is replaced by
its intersection with `other`; boxes with empty intersection are removed with
the source's swap-with-last removal. -/
def DirtyRegion.intersectLoop (other : Box2D) : Nat → List Box2D → Nat → List Box2D
  | 0, l, _ => l
  | Nat.succ fuel, l, i =>
    if i < l.length then
      match (l.getD i default).intersection other with
      | some x => DirtyRegion.intersectLoop other fuel (l.set i x) (i + 1)
      | none =>
        DirtyRegion.intersectLoop other fuel ((l.set i (l.getLast?.getD default)).dropLast) i
    else l

/-- `DirtyRegion::intersection`. -/
def DirtyRegion.intersection (self : DirtyRegion) (other : LogicalRect) : DirtyRegion :=
  ⟨DirtyRegion.intersectLoop other.to_box2d self.rectangles.length self.rectangles 0⟩

/-- `DirtyRegion::draw_intersects`. -/
def DirtyRegion.draw_intersects (self : DirtyRegion) (clipped_geom : LogicalRect) : Bool :=
  self.rectangles.any fun r => r.intersects clipped_geom.to_box2d

/-- `impl From<LogicalRect> for DirtyRegion`: default region plus one
`add_rect`. -/
def DirtyRegion.fromRect (value : LogicalRect) : DirtyRegion :=
  DirtyRegion.add_rect default value

/-- Affine 2D transform (euclid `Transform2D`, row-vector convention). -/
structure ItemTransform where
  m11 : Int
  m12 : Int
  m21 : Int
  m22 : Int
  m31 : Int
  m32 : Int
deriving DecidableEq

/-- euclid `Transform2D::translation`. -/
def ItemTransform.translationMat (x y : Int) : ItemTransform := ⟨1, 0, 0, 1, x, y⟩

/-- euclid `Transform2D::then`: apply `a` first, then `b`. -/
def ItemTransform.thenT (a b : ItemTransform) : ItemTransform :=
  ⟨a.m11 * b.m11 + a.m12 * b.m21,
   a.m11 * b.m12 + a.m12 * b.m22,
   a.m21 * b.m11 + a.m22 * b.m21,
   a.m21 * b.m12 + a.m22 * b.m22,
   a.m31 * b.m11 + a.m32 * b.m21 + b.m31,
   a.m31 * b.m12 + a.m32 * b.m22 + b.m32⟩

/-- euclid `Transform2D::transform_point`. -/
def ItemTransform.transform_point (t : ItemTransform) (p : Int × Int) : Int × Int :=
  (t.m11 * p.1 + t.m21 * p.2 + t.m31, t.m12 * p.1 + t.m22 * p.2 + t.m32)

/-- euclid `Transform2D::outer_transformed_rect`: transform the four corners
and take the axis-aligned hull (`Rect::from_points`). -/
def ItemTransform.outer_transformed_rect (t : ItemTransform) (r : LogicalRect) : LogicalRect :=
  let p1 := t.transform_point (r.x, r.y)
  let p2 := t.transform_point (r.x + r.width, r.y + r.height)
  let p3 := t.transform_point (r.x + r.width, r.y)
  let p4 := t.transform_point (r.x, r.y + r.height)
  let mnx := min (min (min p1.1 p2.1) p3.1) p4.1
  let mny := min (min (min p1.2 p2.2) p3.2) p4.2
  let mxx := max (max (max p1.1 p2.1) p3.1) p4.1
  let mxy := max (max (max p1.2 p2.2) p3.2) p4.2
  ⟨mnx, mny, mxx - mnx, mxy - mny⟩

/-- `PartialRenderer::mark_dirty_rect`: skip empty rects, outer-transform,
intersect with the clip, add the intersection (when non-empty) to the dirty
region. -/
def mark_dirty_rect (region : DirtyRegion) (rect : LogicalRect) (transform : ItemTransform)
    (clip_rect : LogicalRect) : DirtyRegion :=
  if !rect.is_empty then
    match (transform.outer_transformed_rect rect).intersection clip_rect with
    | some r => region.add_rect r
    | none => region
  else region

/-- Marking a rect dirty exactly as the claim sentence words it: "outer
transform the rect by the given transform, intersect with the clipped
rectangle, add to the dirty region (if non-empty)" — with no guard on the
input rect. Stated for comparison with the source's `mark_dirty_rect`. -/
def markDirtyRectClaim (region : DirtyRegion) (rect : LogicalRect) (transform : ItemTransform)
    (clip_rect : LogicalRect) : DirtyRegion :=
  match (transform.outer_transformed_rect rect).intersection clip_rect with
  | some r => region.add_rect r
  | none => region

/-- `CachedItemBoundingBoxAndTransform`: the cached geometry of an item. -/
inductive CachedItemBoundingBoxAndTransform where
  | RegularItem (bounding_rect : LogicalRect) (offset : Int × Int)
  | ItemWithTransform (bounding_rect : LogicalRect) (transform : ItemTransform)
  | ClipItem (geometry : LogicalRect)
deriving DecidableEq

/-- `CachedItemBoundingBoxAndTransform::bounding_rect`. -/
def CachedItemBoundingBoxAndTransform.bounding_rect :
    CachedItemBoundingBoxAndTransform → LogicalRect
  | .RegularItem bounding_rect _ => bounding_rect
  | .ItemWithTransform bounding_rect _ => bounding_rect
  | .ClipItem geometry => geometry

/-- `CachedItemBoundingBoxAndTransform::transform`. -/
def CachedItemBoundingBoxAndTransform.transform :
    CachedItemBoundingBoxAndTransform → ItemTransform
  | .RegularItem _ offset => ItemTransform.translationMat offset.1 offset.2
  | .ItemWithTransform _ transform => transform
  | .ClipItem geometry => ItemTransform.translationMat geometry.x geometry.y

/-- The per-item visit state of `PartialRenderer::compute_dirty_regions`. -/
structure ComputeDirtyRegionState where
  transform_to_screen : ItemTransform
  old_transform_to_screen : ItemTransform
  clipped : LogicalRect
  must_refresh_children : Bool
deriving DecidableEq

/-- `ComputeDirtyRegionState::adjust_transforms_for_child`. -/
def ComputeDirtyRegionState.adjust_transforms_for_child (s : ComputeDirtyRegionState)
    (children_transform old_children_transform : ItemTransform) : ComputeDirtyRegionState :=
  { s with
    transform_to_screen := children_transform.thenT s.transform_to_screen
    old_transform_to_screen := old_children_transform.thenT s.old_transform_to_screen }

/-- What the visitor of `compute_dirty_regions` finds in the cache for the
current item: an entry whose dependency tracker is present and dirty (holding
the old geometry), an entry whose tracker is present and clean, or the
catch-all arm (no entry, or an entry without tracker). -/
inductive CacheEntryView where
  | presentDirty (old_geom : CachedItemBoundingBoxAndTransform)
  | presentClean (cached_geom : CachedItemBoundingBoxAndTransform)
  | absent
deriving DecidableEq

/-- The body of the visitor closure in `PartialRenderer::compute_dirty_regions`
for one item. `new_geom` stands for the geometry that
`CachedItemBoundingBoxAndTransform::new` computes from the item's current
properties (evaluated untracked in the source); `is_clip_or_opacity` for the
`Clip`/`Opacity` downcast test. Returns the state passed to the children and
the updated dirty region. -/
def computeDirtyRegionsVisit (entry : CacheEntryView)
    (new_geom : CachedItemBoundingBoxAndTransform) (is_clip_or_opacity : Bool)
    (state : ComputeDirtyRegionState) (region : DirtyRegion) :
    ComputeDirtyRegionState × DirtyRegion :=
  match entry with
  | .presentDirty old_geom =>
    let region1 := mark_dirty_rect region old_geom.bounding_rect
      state.old_transform_to_screen state.clipped
    let region2 := mark_dirty_rect region1 new_geom.bounding_rect
      state.transform_to_screen state.clipped
    let new_state := state.adjust_transforms_for_child new_geom.transform old_geom.transform
    let new_state :=
      if is_clip_or_opacity then { new_state with must_refresh_children := true }
      else new_state
    (new_state, region2)
  | .presentClean cached_geom =>
    let region2 :=
      if state.must_refresh_children
          || decide (state.transform_to_screen ≠ state.old_transform_to_screen) then
        let region1 := mark_dirty_rect region cached_geom.bounding_rect
          state.old_transform_to_screen state.clipped
        mark_dirty_rect region1 cached_geom.bounding_rect
          state.transform_to_screen state.clipped
      else region
    let new_state := state.adjust_transforms_for_child cached_geom.transform cached_geom.transform
    let new_state :=
      match cached_geom with
      | .ClipItem geometry =>
        { new_state with
          clipped := (new_state.clipped.intersection
            ((state.transform_to_screen.outer_transformed_rect geometry).union
              (state.old_transform_to_screen.outer_transformed_rect geometry))).getD default }
      | _ => new_state
    (new_state, region2)
  | .absent =>
    let new_state := state.adjust_transforms_for_child new_geom.transform new_geom.transform
    let new_state :=
      match new_geom with
      | .ClipItem geometry =>
        { new_state with
          clipped := (new_state.clipped.intersection
            (state.transform_to_screen.outer_transformed_rect geometry)).getD default }
      | _ => new_state
    let region2 := mark_dirty_rect region new_geom.bounding_rect
      state.transform_to_screen state.clipped
    (new_state, region2)

/-- `RenderingResult` of the item renderer. -/
inductive RenderingResult where
  | ContinueRenderingChildren
  | ContinueRenderingWithoutChildren
deriving DecidableEq

/-- Observable outcome of one item visit in `render_item_children`. -/
structure RenderItemVisit where
  render_invoked : Bool
  children_visited : Bool
deriving DecidableEq

/-- The body of the visitor closure in `render_item_children` for one item,
abstracted over the renderer's `filter_item` verdict (`do_draw`), the item's
`clips_children()` flag, the `BoxShadow` downcast test, and the
`RenderingResult` the item's `render` returns when invoked. -/
def render_item_children_step (do_draw clips_children is_box_shadow : Bool)
    (render_result : RenderingResult) : RenderItemVisit :=
  let invoked := do_draw || clips_children || is_box_shadow
  let result := if invoked then render_result else RenderingResult.ContinueRenderingChildren
  ⟨invoked, decide (result = RenderingResult.ContinueRenderingChildren)⟩

/-- Result of `PartialRenderingState::apply_dirty_region`: the region
returned to the caller and the effective dirty region stored back into the
renderer for the render pass. -/
structure ApplyDirtyRegionResult where
  region_to_repaint : DirtyRegion
  stored_dirty_region : DirtyRegion
deriving DecidableEq

/-- `PartialRenderingState::apply_dirty_region`, abstracted over the dirty
region the compute passes accumulated in the renderer
(`accumulated_dirty_region`) and over the `force_screen_refresh` flag value
`take()` observes. -/
def apply_dirty_region (accumulated_dirty_region : DirtyRegion) (force_screen_refresh : Bool)
    (logical_window_size : Int × Int)
    (dirty_region_of_existing_buffer : Option DirtyRegion) : ApplyDirtyRegionResult :=
  let screen_region := LogicalRect.from_size logical_window_size.1 logical_window_size.2
  let dirty1 :=
    if force_screen_refresh then DirtyRegion.fromRect screen_region
    else accumulated_dirty_region
  let region_to_repaint := dirty1
  let stored :=
    (match dirty_region_of_existing_buffer with
      | some d => dirty1.union d
      | none => dirty1).intersection screen_region
  ⟨region_to_repaint, stored⟩

/-- Modelled from the spec: `RenderingCache<T>` (defined in the graphics
module, not part of the given source) is a slotted store with a current
generation; `remove(index)` empties the slot and returns its content and
does not change the generation (only `clear()` bumps it). Entry payloads are
modelled directly as `T`. -/
structure RenderingCache (T : Type) where
  slots : Nat → Option T
  generation : Nat

/-- Modelled from the spec: `RenderingCache::get` / `get_mut` is a plain slot
lookup. -/
def RenderingCache.get_mut {T : Type} (c : RenderingCache T) (index : Nat) : Option T :=
  c.slots index

/-- Modelled from the spec: `RenderingCache::remove` empties the slot,
returning the removed entry (as an `Option`, absent slots yield `none` where
the source would panic) and leaving the generation unchanged. -/
def RenderingCache.remove {T : Type} (c : RenderingCache T) (index : Nat) :
    Option T × RenderingCache T :=
  (c.slots index, ⟨fun j => if j = index then none else c.slots j, c.generation⟩)

/-- `CachedRenderingData`: the cache handle embedded in each item. The
source's `Cell` fields are modelled by returning the updated handle. -/
structure CachedRenderingData where
  cache_index : Nat
  cache_generation : Nat
deriving DecidableEq

/-- `CachedRenderingData::release`: when the handle generation matches the
cache generation, zero the handle generation and remove the slot; otherwise
do nothing and return `none`. Returns (updated handle, updated cache,
removed data). -/
def CachedRenderingData.release {T : Type} (self : CachedRenderingData)
    (cache : RenderingCache T) : CachedRenderingData × RenderingCache T × Option T :=
  if self.cache_generation = cache.generation then
    let removed := cache.remove self.cache_index
    ({ self with cache_generation := 0 }, removed.2, removed.1)
  else (self, cache, none)

/-- `CachedRenderingData::get_entry`: the slot content when the handle
generation matches the cache generation, `none` otherwise. -/
def CachedRenderingData.get_entry {T : Type} (self : CachedRenderingData)
    (cache : RenderingCache T) : Option T :=
  if self.cache_generation = cache.generation then cache.get_mut self.cache_index
  else none

/-- Invariant (a) of the spec: no stored box is empty. -/
def DirtyRegion.NoEmptyStored (self : DirtyRegion) : Prop :=
  ∀ x ∈ self.rectangles, x.is_empty = false

/-- The symmetric no-containment relation between two stored boxes. -/
def noContainPair (x y : Box2D) : Prop :=
  x.contains_box y = false ∧ y.contains_box x = false

instance : DecidableRel noContainPair := fun x y => by
  unfold noContainPair; infer_instance

/-- Invariant (b) of the spec: no stored box contains another stored box. -/
def DirtyRegion.NoStoredContains (self : DirtyRegion) : Prop :=
  self.rectangles.Pairwise noContainPair

instance (self : DirtyRegion) : Decidable self.NoStoredContains := by
  unfold DirtyRegion.NoStoredContains; infer_instance

instance (self : DirtyRegion) : Decidable self.NoEmptyStored := by
  unfold DirtyRegion.NoEmptyStored; infer_instance

/-! ## Order lemmas for boxes -/

/-- Emptiness of a box, unfolded to a linear-arithmetic proposition. -/
theorem Box2D.is_empty_iff {b : Box2D} :
    b.is_empty = true ↔ b.maxX ≤ b.minX ∨ b.maxY ≤ b.minY := by
  simp [Box2D.is_empty]

/-- Box containment, unfolded to a linear-arithmetic proposition. -/
theorem Box2D.contains_box_iff {s o : Box2D} :
    s.contains_box o = true ↔
      (o.maxX ≤ o.minX ∨ o.maxY ≤ o.minY) ∨
      (s.minX ≤ o.minX ∧ o.maxX ≤ s.maxX ∧ s.minY ≤ o.minY ∧ o.maxY ≤ s.maxY) := by
  simp [Box2D.contains_box, Box2D.is_empty, and_assoc]

/-- Every box contains itself. -/
theorem Box2D.contains_box_refl (b : Box2D) : b.contains_box b = true := by
  rw [Box2D.contains_box_iff]; omega

/-- Every box contains an empty box. -/
theorem Box2D.contains_box_of_empty {s o : Box2D} (h : o.is_empty = true) :
    s.contains_box o = true := by
  rw [Box2D.contains_box_iff]; rw [Box2D.is_empty_iff] at h; omega

/-- Box containment is transitive. -/
theorem Box2D.contains_box_trans {a b c : Box2D} (h1 : a.contains_box b = true)
    (h2 : b.contains_box c = true) : a.contains_box c = true := by
  rw [Box2D.contains_box_iff] at *; omega

/-- The union of two boxes contains its first argument. -/
theorem Box2D.union_contains_left (a b : Box2D) : (a.union b).contains_box a = true := by
  unfold Box2D.union
  split_ifs with h1 h2
  · exact Box2D.contains_box_refl a
  · exact Box2D.contains_box_of_empty h2
  · simp only [Box2D.contains_box_iff]
    omega

/-- The union of two boxes contains its second argument. -/
theorem Box2D.union_contains_right (a b : Box2D) : (a.union b).contains_box b = true := by
  unfold Box2D.union
  split_ifs with h1 h2
  · exact Box2D.contains_box_of_empty h1
  · exact Box2D.contains_box_refl b
  · simp only [Box2D.contains_box_iff]
    omega

/-- A box containing both arguments contains their union. -/
theorem Box2D.contains_union {c a b : Box2D} (ha : c.contains_box a = true)
    (hb : c.contains_box b = true) : c.contains_box (a.union b) = true := by
  unfold Box2D.union
  split_ifs with h1 h2
  · exact ha
  · exact hb
  · rw [Box2D.is_empty_iff] at *
    rw [Box2D.contains_box_iff] at *
    simp only
    omega

/-- `intersection_unchecked` is below its first argument. -/
theorem Box2D.inter_le_left (a b : Box2D) :
    a.contains_box (a.intersection_unchecked b) = true := by
  rw [Box2D.contains_box_iff]; unfold Box2D.intersection_unchecked; simp only; omega

/-- `intersection_unchecked` is below its second argument. -/
theorem Box2D.inter_le_right (a b : Box2D) :
    b.contains_box (a.intersection_unchecked b) = true := by
  rw [Box2D.contains_box_iff]; unfold Box2D.intersection_unchecked; simp only; omega

/-- A box below both arguments is below their `intersection_unchecked`. -/
theorem Box2D.le_inter {c d x : Box2D} (hc : c.contains_box x = true)
    (hd : d.contains_box x = true) :
    (c.intersection_unchecked d).contains_box x = true := by
  rw [Box2D.contains_box_iff] at *
  unfold Box2D.intersection_unchecked
  simp only
  omega

/-- Round-trip from box to rect and back. -/
theorem Box2D.to_rect_to_box2d (b : Box2D) : b.to_rect.to_box2d = b := by
  cases b
  simp [Box2D.to_rect, LogicalRect.to_box2d]

/-- Rect containment agrees with box containment of the converted boxes. -/
theorem LogicalRect.contains_rect_iff_box (s o : LogicalRect) :
    s.contains_rect o = s.to_box2d.contains_box o.to_box2d := by
  rw [Bool.eq_iff_iff]
  rw [Box2D.contains_box_iff]
  simp [LogicalRect.contains_rect, LogicalRect.is_empty, LogicalRect.to_box2d]
  omega

/-! ## Hull lemmas for folded unions -/

/-- A folded union contains its accumulator. -/
theorem foldl_union_contains_acc (l : List Box2D) (acc : Box2D) :
    (l.foldl Box2D.union acc).contains_box acc = true := by
  induction l generalizing acc with
  | nil => exact Box2D.contains_box_refl acc
  | cons y tl ih =>
    simp only [List.foldl_cons]
    exact Box2D.contains_box_trans (ih (acc.union y)) (Box2D.union_contains_left acc y)

/-- A folded union contains every list element. -/
theorem foldl_union_contains_mem : ∀ (l : List Box2D) (acc x : Box2D), x ∈ l →
    (l.foldl Box2D.union acc).contains_box x = true
  | y :: tl, acc, x, hx => by
    simp only [List.foldl_cons]
    rcases List.mem_cons.mp hx with rfl | hx'
    · exact Box2D.contains_box_trans (foldl_union_contains_acc tl (acc.union x))
        (Box2D.union_contains_right acc x)
    · exact foldl_union_contains_mem tl (acc.union y) x hx'

/-- A box above the accumulator and every element is above the folded union. -/
theorem foldl_union_le (l : List Box2D) (acc C : Box2D) (hacc : C.contains_box acc = true)
    (h : ∀ x ∈ l, C.contains_box x = true) :
    C.contains_box (l.foldl Box2D.union acc) = true := by
  induction l generalizing acc with
  | nil => exact hacc
  | cons y tl ih =>
    simp only [List.foldl_cons]
    exact ih (acc.union y) (Box2D.contains_union hacc (h y (by simp)))
      (fun x hx => h x (by simp [hx]))

/-- The bounding box of a region contains every stored box. -/
theorem DirtyRegion.boundingBox_contains_mem (reg : DirtyRegion) (x : Box2D)
    (hx : x ∈ reg.rectangles) : reg.boundingBox.contains_box x = true := by
  obtain ⟨l⟩ := reg
  unfold DirtyRegion.boundingBox
  match l, hx with
  | y :: tl, hx =>
    rcases List.mem_cons.mp hx with rfl | hx'
    · exact foldl_union_contains_acc tl x
    · exact foldl_union_contains_mem tl y x hx'

/-- A box above every stored box is above the region's bounding box. -/
theorem DirtyRegion.boundingBox_le (reg : DirtyRegion) (C : Box2D)
    (h : ∀ x ∈ reg.rectangles, C.contains_box x = true) :
    C.contains_box reg.boundingBox = true := by
  obtain ⟨l⟩ := reg
  unfold DirtyRegion.boundingBox
  match l, h with
  | [], _ => exact Box2D.contains_box_of_empty (by decide)
  | y :: tl, h =>
    exact foldl_union_le tl y C (h y (by simp)) (fun x hx => h x (by simp [hx]))

/-! ## The swap-with-last removal step -/

/-- The `getLast?.getD default` expression used by the loops equals the last
element. -/
theorem getLastD_eq_getElem {α : Type} [Inhabited α] (l : List α) (h : l ≠ [])
    (hl : l.length - 1 < l.length) :
    l.getLast?.getD default = l[l.length - 1] := by
  rw [List.getLast?_eq_getLast l h]
  exact List.getLast_eq_getElem l h

/-- Setting an index to the value already stored there is the identity. -/
theorem List.set_getElem_self' {α : Type} (l : List α) (i : Nat) (h : i < l.length) :
    l.set i (l[i]) = l := by
  apply List.ext_getElem
  · simp
  · intro j h1 h2
    by_cases hj : j = i
    · subst hj; simp
    · rw [List.getElem_set_ne (by omega)]

/-- The source's removal step — replace slot `i` by the last live element and
shrink — is, up to permutation, the removal of the element at `i`. -/
theorem set_last_dropLast_perm {α : Type} [Inhabited α] (l : List α) (i : Nat)
    (h : i < l.length) :
    l.Perm (((l.set i (l.getLast?.getD default)).dropLast) ++ [l[i]]) := by
  have hne : l ≠ [] := by
    intro e; subst e; simp at h
  have hl1 : l.length - 1 < l.length := by omega
  rw [getLastD_eq_getElem l hne hl1]
  by_cases hi : i = l.length - 1
  · subst hi
    rw [List.set_getElem_self' l _ h]
    have hlast : l[l.length - 1] = l.getLast hne := (List.getLast_eq_getElem l hne).symm
    rw [hlast, List.dropLast_append_getLast hne]
  · have hi' : i < l.length - 1 := by omega
    have hset : l.set i (l[l.length - 1]) = l.take i ++ l[l.length - 1] :: l.drop (i + 1) := by
      rw [List.set_eq_take_append_cons_drop, if_pos h]
    have hBne : l.drop (i + 1) ≠ [] := by
      intro e
      have := congrArg List.length e
      simp at this
      omega
    have hz : l[l.length - 1] = (l.drop (i + 1)).getLast hBne := by
      rw [List.getLast_eq_getElem _ hBne]
      rw [List.getElem_drop]
      congr 1
      simp
      omega
    have hsplit : l.take i ++ l[i] :: l.drop (i + 1) = l := by
      rw [← List.drop_eq_getElem_cons h, List.take_append_drop]
    have hdrop :
        (l.take i ++ l[l.length - 1] :: l.drop (i + 1)).dropLast =
          l.take i ++ l[l.length - 1] :: (l.drop (i + 1)).dropLast := by
      rw [show (l[l.length - 1] :: l.drop (i + 1)) = [l[l.length - 1]] ++ l.drop (i + 1) from rfl]
      rw [← List.append_assoc, List.dropLast_append_of_ne_nil _ hBne, List.append_assoc]
      rfl
    rw [hset, hdrop]
    refine List.Perm.trans (show l.Perm (l[i] :: (l.take i ++ l.drop (i + 1))) from ?_) ?_
    · conv_lhs => rw [← hsplit]
      exact List.perm_middle
    · refine List.Perm.trans
        (show (l[i] :: (l.take i ++ l.drop (i + 1))).Perm
          (l[i] :: (l.take i ++ (l[l.length - 1] :: (l.drop (i + 1)).dropLast))) from ?_) ?_
      · apply List.Perm.cons
        apply List.Perm.append_left
        rw [hz]
        conv_lhs => rw [← List.dropLast_append_getLast hBne]
        exact List.perm_append_singleton _ _
      · exact (List.perm_append_singleton _ _).symm

/-! ## Specification of the add-box loop -/

/-- Unfolding equation for one step of the loop. -/
theorem addBoxLoop_succ (b : Box2D) (fuel : Nat) (l : List Box2D) (i : Nat) :
    DirtyRegion.addBoxLoop b (fuel + 1) l i =
      if i < l.length then
        if (l.getD i default).contains_box b then none
        else if b.contains_box (l.getD i default) then
          DirtyRegion.addBoxLoop b fuel ((l.set i (l.getLast?.getD default)).dropLast) i
        else DirtyRegion.addBoxLoop b fuel l (i + 1)
      else some l := rfl

/-- Full specification of the `add_box` while loop, assuming the positions
before `i` have already been examined: the loop returns `none` exactly when a
live box contains `b`; otherwise the surviving list is, up to permutation, the
input minus a set of boxes contained in `b`, and no survivor contains or is
contained in `b`. -/
theorem addBoxLoop_spec (b : Box2D) :
    ∀ (fuel i : Nat) (l : List Box2D), l.length ≤ fuel + i →
      (∀ j (hj : j < l.length), j < i →
        l[j].contains_box b = false ∧ b.contains_box l[j] = false) →
      ((∀ l', DirtyRegion.addBoxLoop b fuel l i = some l' →
          ∃ removed, l.Perm (l' ++ removed) ∧ (∀ x ∈ removed, b.contains_box x = true) ∧
            (∀ x ∈ l', x.contains_box b = false ∧ b.contains_box x = false)) ∧
        (DirtyRegion.addBoxLoop b fuel l i = none → ∃ x ∈ l, x.contains_box b = true)) := by
  intro fuel
  induction fuel with
  | zero =>
    intro i l hlen hpre
    constructor
    · intro l' hl'
      simp only [DirtyRegion.addBoxLoop] at hl'
      injection hl' with hl'
      subst hl'
      refine ⟨[], by simp, by simp, fun x hx => ?_⟩
      obtain ⟨j, hj, rfl⟩ := List.mem_iff_getElem.mp hx
      exact hpre j hj (by omega)
    · intro hnone
      simp [DirtyRegion.addBoxLoop] at hnone
  | succ fuel ih =>
    intro i l hlen hpre
    by_cases hil : i < l.length
    case neg =>
      constructor
      · intro l' hl'
        rw [addBoxLoop_succ, if_neg hil] at hl'
        injection hl' with hl'
        subst hl'
        refine ⟨[], by simp, by simp, fun x hx => ?_⟩
        obtain ⟨j, hj, rfl⟩ := List.mem_iff_getElem.mp hx
        exact hpre j hj (by omega)
      · intro hnone
        rw [addBoxLoop_succ, if_neg hil] at hnone
        cases hnone
    case pos =>
      have hgetD : l.getD i default = l[i] := List.getD_eq_getElem l default hil
      by_cases hc1 : l[i].contains_box b = true
      · constructor
        · intro l' hl'
          rw [addBoxLoop_succ, if_pos hil, hgetD, if_pos hc1] at hl'
          cases hl'
        · intro _
          exact ⟨l[i], List.getElem_mem hil, hc1⟩
      · simp only [Bool.not_eq_true] at hc1
        by_cases hc2 : b.contains_box (l[i]) = true
        · -- removal branch
          have hstep : DirtyRegion.addBoxLoop b (fuel + 1) l i =
              DirtyRegion.addBoxLoop b fuel ((l.set i (l.getLast?.getD default)).dropLast) i := by
            rw [addBoxLoop_succ, if_pos hil, hgetD, if_neg (by simp [hc1]), if_pos hc2]
          have hlen2 : ((l.set i (l.getLast?.getD default)).dropLast).length ≤ fuel + i := by
            simp only [List.length_dropLast, List.length_set]
            omega
          have hpre2 : ∀ j (hj : j < ((l.set i (l.getLast?.getD default)).dropLast).length),
              j < i →
              ((l.set i (l.getLast?.getD default)).dropLast)[j].contains_box b = false ∧
                b.contains_box (((l.set i (l.getLast?.getD default)).dropLast)[j]) = false := by
            intro j hj hji
            have hj0 : j < l.length := by
              simp only [List.length_dropLast, List.length_set] at hj
              omega
            rw [List.getElem_dropLast, List.getElem_set_ne (by omega)]
            exact hpre j hj0 hji
          obtain ⟨hsome, hnone⟩ := ih i _ hlen2 hpre2
          have hperm := set_last_dropLast_perm l i hil
          constructor
          · intro l' hl'
            rw [hstep] at hl'
            obtain ⟨removed, hp, hrem, hsurv⟩ := hsome l' hl'
            refine ⟨removed ++ [l[i]], ?_, ?_, hsurv⟩
            · refine hperm.trans ?_
              have := hp.append_right [l[i]]
              rw [List.append_assoc] at this
              exact this
            · intro x hx
              rcases List.mem_append.mp hx with hx' | hx'
              · exact hrem x hx'
              · rw [List.mem_singleton.mp hx']
                exact hc2
          · intro hn
            rw [hstep] at hn
            obtain ⟨x, hx, hxc⟩ := hnone hn
            have hxl : x ∈ l := by
              have := hperm.mem_iff.mpr (List.mem_append.mpr (Or.inl hx))
              exact this
            exact ⟨x, hxl, hxc⟩
        · -- advance branch
          simp only [Bool.not_eq_true] at hc2
          have hstep : DirtyRegion.addBoxLoop b (fuel + 1) l i =
              DirtyRegion.addBoxLoop b fuel l (i + 1) := by
            rw [addBoxLoop_succ, if_pos hil, hgetD, if_neg (by simp [hc1]),
              if_neg (by simp [hc2])]
          have hpre2 : ∀ j (hj : j < l.length), j < i + 1 →
              l[j].contains_box b = false ∧ b.contains_box l[j] = false := by
            intro j hj hji
            by_cases hjeq : j = i
            · subst hjeq
              exact ⟨hc1, hc2⟩
            · exact hpre j hj (by omega)
          obtain ⟨hsome, hnone⟩ := ih (i + 1) l (by omega) hpre2
          rw [hstep]
          exact ⟨hsome, hnone⟩

/-- Running the loop as `add_box` does (from index 0 with fuel equal to the
list length): the `some` outcome. -/
theorem addBoxLoop_run_some (b : Box2D) (l l' : List Box2D)
    (h : DirtyRegion.addBoxLoop b l.length l 0 = some l') :
    ∃ removed, l.Perm (l' ++ removed) ∧ (∀ x ∈ removed, b.contains_box x = true) ∧
      (∀ x ∈ l', x.contains_box b = false ∧ b.contains_box x = false) :=
  (addBoxLoop_spec b l.length 0 l (by omega) (fun j hj hji => by omega)).1 l' h

/-- Running the loop as `add_box` does: the `none` outcome means some stored
box contains `b`. -/
theorem addBoxLoop_run_none (b : Box2D) (l : List Box2D)
    (h : DirtyRegion.addBoxLoop b l.length l 0 = none) :
    ∃ x ∈ l, x.contains_box b = true :=
  (addBoxLoop_spec b l.length 0 l (by omega) (fun j hj hji => by omega)).2 h

/-- When no stored box interacts with `b`, the loop leaves the list alone. -/
theorem addBoxLoop_of_free (b : Box2D) :
    ∀ (fuel i : Nat) (l : List Box2D), l.length ≤ fuel + i →
      (∀ x ∈ l, x.contains_box b = false ∧ b.contains_box x = false) →
      DirtyRegion.addBoxLoop b fuel l i = some l := by
  intro fuel
  induction fuel with
  | zero =>
    intro i l hlen hfree
    rfl
  | succ fuel ih =>
    intro i l hlen hfree
    by_cases hil : i < l.length
    · have hgetD : l.getD i default = l[i] := List.getD_eq_getElem l default hil
      have hfi := hfree (l[i]) (List.getElem_mem hil)
      rw [addBoxLoop_succ, if_pos hil, hgetD, if_neg (by simp [hfi.1]),
        if_neg (by simp [hfi.2])]
      exact ih (i + 1) l (by omega) hfree
    · rw [addBoxLoop_succ, if_neg hil]

/-! ## Lemmas about the min-by selection -/

/-- The min-by fold returns its accumulator or a list element. -/
theorem foldl_minBy_mem (tl : List (Nat × Int)) :
    ∀ acc : Nat × Int,
      tl.foldl (fun acc q => if acc.2 > q.2 then q else acc) acc = acc ∨
        tl.foldl (fun acc q => if acc.2 > q.2 then q else acc) acc ∈ tl := by
  induction tl with
  | nil =>
    intro acc
    left
    rfl
  | cons q tl ih =>
    intro acc
    simp only [List.foldl_cons]
    rcases ih (if acc.2 > q.2 then q else acc) with h | h
    · rw [h]
      by_cases hc : acc.2 > q.2
      · right
        rw [if_pos hc]
        exact List.mem_cons_self q tl
      · left
        rw [if_neg hc]
    · right
      exact List.mem_cons_of_mem q h

/-- A successful min-by selection yields an element of the list. -/
theorem minByFirst_mem {ps : List (Nat × Int)} {p : Nat × Int}
    (h : minByFirst ps = some p) : p ∈ ps := by
  match ps, h with
  | q :: tl, h =>
    injection h with h
    subst h
    rcases foldl_minBy_mem tl q with h | h
    · rw [h]
      exact List.mem_cons_self q tl
    · exact List.mem_cons_of_mem q h

/-- The min-by selection fails only on the empty list. -/
theorem minByFirst_eq_none {ps : List (Nat × Int)} (h : minByFirst ps = none) : ps = [] := by
  match ps, h with
  | [], _ => rfl

/-- A selected pair from the growth list has an in-range index. -/
theorem minByFirst_growthList_lt {l : List Box2D} {b : Box2D} {p : Nat × Int}
    (h : minByFirst (DirtyRegion.growthList l b) = some p) : p.1 < l.length := by
  have hp := minByFirst_mem h
  unfold DirtyRegion.growthList at hp
  obtain ⟨i, hi, rfl⟩ := List.mem_map.mp hp
  simpa using List.mem_range.mp hi

/-! ## Covering properties of add_box -/

/-- Every box stored before an `add_box` is contained in some box stored
after it. -/
theorem DirtyRegion.add_box_covers_mem (reg : DirtyRegion) (b x : Box2D)
    (hx : x ∈ reg.rectangles) :
    ∃ z ∈ (reg.add_box b).rectangles, z.contains_box x = true := by
  unfold DirtyRegion.add_box
  by_cases hbe : b.is_empty = true
  · rw [if_pos hbe]
    exact ⟨x, hx, Box2D.contains_box_refl x⟩
  · rw [if_neg hbe]
    cases hloop : DirtyRegion.addBoxLoop b reg.rectangles.length reg.rectangles 0 with
    | none => exact ⟨x, hx, Box2D.contains_box_refl x⟩
    | some l =>
      obtain ⟨removed, hperm, hrem, hsurv⟩ := addBoxLoop_run_some b reg.rectangles l hloop
      have hx' : x ∈ l ++ removed := hperm.mem_iff.mp hx
      dsimp only
      by_cases hlen : l.length < DirtyRegion.MAX_COUNT
      · rw [if_pos hlen]
        rcases List.mem_append.mp hx' with hxl | hxr
        · exact ⟨x, List.mem_append.mpr (Or.inl hxl), Box2D.contains_box_refl x⟩
        · exact ⟨b, List.mem_append.mpr (Or.inr (by simp)), hrem x hxr⟩
      · rw [if_neg hlen]
        cases hmin : minByFirst (DirtyRegion.growthList l b) with
        | none => exact ⟨x, hx, Box2D.contains_box_refl x⟩
        | some best =>
          dsimp only
          have hbest : best.1 < l.length := minByFirst_growthList_lt hmin
          have hmem_new : ((l.getD best.1 default).union b) ∈
              l.set best.1 ((l.getD best.1 default).union b) :=
            List.mem_iff_getElem.mpr ⟨best.1, by simp [hbest], by simp⟩
          have hgetD : l.getD best.1 default = l[best.1] :=
            List.getD_eq_getElem l default hbest
          rcases List.mem_append.mp hx' with hxl | hxr
          · obtain ⟨j, hj, rfl⟩ := List.mem_iff_getElem.mp hxl
            by_cases hjb : j = best.1
            · subst hjb
              refine ⟨(l.getD best.1 default).union b, hmem_new, ?_⟩
              rw [hgetD]
              exact Box2D.union_contains_left _ _
            · refine ⟨l[j], ?_, Box2D.contains_box_refl _⟩
              refine List.mem_iff_getElem.mpr ⟨j, by simp [hj], ?_⟩
              exact List.getElem_set_ne (Ne.symm hjb) (by simp [hj])
          · refine ⟨(l.getD best.1 default).union b, hmem_new, ?_⟩
            exact Box2D.contains_box_trans (Box2D.union_contains_right _ _) (hrem x hxr)

/-- After `add_box b`, the region's bounding box contains `b`. -/
theorem DirtyRegion.add_box_covers_new (reg : DirtyRegion) (b : Box2D) :
    (reg.add_box b).boundingBox.contains_box b = true := by
  by_cases hbe : b.is_empty = true
  · exact Box2D.contains_box_of_empty hbe
  · suffices h : ∃ z ∈ (reg.add_box b).rectangles, z.contains_box b = true by
      obtain ⟨z, hz, hzb⟩ := h
      exact Box2D.contains_box_trans ((reg.add_box b).boundingBox_contains_mem z hz) hzb
    unfold DirtyRegion.add_box
    rw [if_neg hbe]
    cases hloop : DirtyRegion.addBoxLoop b reg.rectangles.length reg.rectangles 0 with
    | none =>
      obtain ⟨x, hx, hxc⟩ := addBoxLoop_run_none b reg.rectangles hloop
      exact ⟨x, hx, hxc⟩
    | some l =>
      dsimp only
      by_cases hlen : l.length < DirtyRegion.MAX_COUNT
      · rw [if_pos hlen]
        exact ⟨b, List.mem_append.mpr (Or.inr (by simp)), Box2D.contains_box_refl b⟩
      · rw [if_neg hlen]
        cases hmin : minByFirst (DirtyRegion.growthList l b) with
        | none =>
          exfalso
          have := minByFirst_eq_none hmin
          unfold DirtyRegion.growthList at this
          have hl0 : l.length = 0 := by simpa using congrArg List.length this
          rw [hl0] at hlen
          exact hlen (by decide)
        | some best =>
          dsimp only
          have hbest : best.1 < l.length := minByFirst_growthList_lt hmin
          have hmem_new : ((l.getD best.1 default).union b) ∈
              l.set best.1 ((l.getD best.1 default).union b) :=
            List.mem_iff_getElem.mpr ⟨best.1, by simp [hbest], by simp⟩
          exact ⟨(l.getD best.1 default).union b, hmem_new, Box2D.union_contains_right _ _⟩

/-- The bounding box only grows under `add_box`. -/
theorem DirtyRegion.boundingBox_mono_add (reg : DirtyRegion) (b : Box2D) :
    (reg.add_box b).boundingBox.contains_box reg.boundingBox = true := by
  apply DirtyRegion.boundingBox_le
  intro x hx
  obtain ⟨z, hz, hzx⟩ := reg.add_box_covers_mem b x hx
  exact Box2D.contains_box_trans ((reg.add_box b).boundingBox_contains_mem z hz) hzx

/-! ## Specification of the intersection loop -/

/-- Unfolding equation for one step of the intersection loop. -/
theorem intersectLoop_succ (other : Box2D) (fuel : Nat) (l : List Box2D) (i : Nat) :
    DirtyRegion.intersectLoop other (fuel + 1) l i =
      if i < l.length then
        match (l.getD i default).intersection other with
        | some x => DirtyRegion.intersectLoop other fuel (l.set i x) (i + 1)
        | none =>
          DirtyRegion.intersectLoop other fuel ((l.set i (l.getLast?.getD default)).dropLast) i
      else l := rfl

/-- Invariant-based specification of the intersection loop: if positions
before `i` satisfy `Q` and positions from `i` on satisfy `U`, and a
successful intersection of a `U` element gives a `Q` element, every element
of the final list satisfies `Q`. -/
theorem intersectLoop_spec (other : Box2D) (U Q : Box2D → Prop)
    (step : ∀ x r, U x → x.intersection other = some r → Q r) :
    ∀ (fuel i : Nat) (l : List Box2D), l.length ≤ fuel + i →
      (∀ j (hj : j < l.length), (j < i → Q l[j]) ∧ (i ≤ j → U l[j])) →
      ∀ x ∈ DirtyRegion.intersectLoop other fuel l i, Q x := by
  intro fuel
  induction fuel with
  | zero =>
    intro i l hlen hinv x hx
    simp only [DirtyRegion.intersectLoop] at hx
    obtain ⟨j, hj, rfl⟩ := List.mem_iff_getElem.mp hx
    exact (hinv j hj).1 (by omega)
  | succ fuel ih =>
    intro i l hlen hinv x hx
    by_cases hil : i < l.length
    · have hgetD : l.getD i default = l[i] := List.getD_eq_getElem l default hil
      rw [intersectLoop_succ, if_pos hil] at hx
      cases hinter : (l.getD i default).intersection other with
      | some r =>
        rw [hinter] at hx
        refine ih (i + 1) (l.set i r) (by simp; omega) ?_ x hx
        intro j hj
        have hj' : j < l.length := by simpa using hj
        constructor
        · intro hji
          by_cases hjeq : j = i
          · subst hjeq
            rw [List.getElem_set_self hj]
            rw [hgetD] at hinter
            exact step _ _ ((hinv j hj').2 (by omega)) hinter
          · rw [List.getElem_set_ne (Ne.symm hjeq) hj]
            exact (hinv j hj').1 (by omega)
        · intro hji
          rw [List.getElem_set_ne (by omega) hj]
          exact (hinv j hj').2 (by omega)
      | none =>
        rw [hinter] at hx
        have hlast : l.getLast?.getD default = l[l.length - 1] :=
          getLastD_eq_getElem l (by intro e; subst e; simp at hil) (by omega)
        refine ih i ((l.set i (l.getLast?.getD default)).dropLast) (by simp; omega) ?_ x hx
        intro j hj
        have hj' : j < l.length - 1 := by simpa using hj
        have hj'' : j < l.length := by omega
        constructor
        · intro hji
          rw [List.getElem_dropLast, List.getElem_set_ne (by omega)]
          exact (hinv j hj'').1 hji
        · intro hji
          by_cases hjeq : j = i
          · subst hjeq
            rw [List.getElem_dropLast, List.getElem_set_self, hlast]
            exact (hinv (l.length - 1) (by omega)).2 (by omega)
          · rw [List.getElem_dropLast, List.getElem_set_ne (Ne.symm hjeq)]
            exact (hinv j hj'').2 hji
    · rw [intersectLoop_succ, if_neg hil] at hx
      obtain ⟨j, hj, rfl⟩ := List.mem_iff_getElem.mp hx
      exact (hinv j hj).1 (by omega)

/-- A successful box intersection is the unchecked intersection. -/
theorem Box2D.intersection_eq_some {s o r : Box2D} (h : s.intersection o = some r) :
    r = s.intersection_unchecked o := by
  unfold Box2D.intersection at h
  by_cases he : (s.intersection_unchecked o).is_empty = true
  · simp [he] at h
  · simp [he] at h
    exact h.symm

/-! ## Claim theorems -/

/-- C1 (corrected): in the dirty-region pass, when the cache entry is present
and its tracker dirty, the visit marks dirty the old bounding rect under the
old transform chain and then the new bounding rect under the new chain —
where `mark_dirty_rect` skips empty input rects, and otherwise
outer-transforms, intersects with the ancestor clip, and adds a non-empty
intersection to the region (as stated by `markDirtyRectClaim`). -/
theorem claim_C1 :
    (∀ (old_geom new_geom : CachedItemBoundingBoxAndTransform) (flag : Bool)
        (st : ComputeDirtyRegionState) (region : DirtyRegion),
      (computeDirtyRegionsVisit (.presentDirty old_geom) new_geom flag st region).2 =
        mark_dirty_rect
          (mark_dirty_rect region old_geom.bounding_rect st.old_transform_to_screen st.clipped)
          new_geom.bounding_rect st.transform_to_screen st.clipped) ∧
    (∀ (region : DirtyRegion) (rect : LogicalRect) (t : ItemTransform) (clip : LogicalRect),
      mark_dirty_rect region rect t clip =
        if rect.is_empty then region else markDirtyRectClaim region rect t clip) := by
  constructor
  · intro old_geom new_geom flag st region
    rfl
  · intro region rect t clip
    unfold mark_dirty_rect markDirtyRectClaim
    cases h : rect.is_empty <;> simp [h]

/-- C1 counterexample: the claim's wording of "mark dirty" (outer-transform,
intersect, add if non-empty — with no guard on the input rect) disagrees
with the pass on a degenerate (zero-width) bounding rect under a shear
transform: the code skips it, the claimed marking adds a non-empty rect. -/
theorem claim_C1_counterexample :
    (computeDirtyRegionsVisit
        (.presentDirty (.RegularItem ⟨0, 0, 0, 3⟩ (0, 0)))
        (.RegularItem ⟨0, 0, 0, 0⟩ (0, 0)) false
        ⟨⟨1, 0, 0, 1, 0, 0⟩, ⟨1, 0, 1, 1, 0, 0⟩, ⟨0, 0, 100, 100⟩, false⟩ ⟨[]⟩).2 ≠
      markDirtyRectClaim
        (markDirtyRectClaim ⟨[]⟩
          (CachedItemBoundingBoxAndTransform.RegularItem ⟨0, 0, 0, 3⟩ (0, 0)).bounding_rect
          ⟨1, 0, 1, 1, 0, 0⟩ ⟨0, 0, 100, 100⟩)
        (CachedItemBoundingBoxAndTransform.RegularItem ⟨0, 0, 0, 0⟩ (0, 0)).bounding_rect
        ⟨1, 0, 0, 1, 0, 0⟩ ⟨0, 0, 100, 100⟩ := by decide

/-- C2: on a full region (3 stored boxes), adding a non-empty box unrelated
by containment to every stored box replaces the stored box of minimal area
growth — ties resolved to the lowest index — by its union with the new
box. -/
theorem claim_C2 (reg : DirtyRegion) (b : Box2D)
    (hlen : reg.rectangles.length = DirtyRegion.MAX_COUNT)
    (hbe : b.is_empty = false)
    (hfree : ∀ x ∈ reg.rectangles, x.contains_box b = false ∧ b.contains_box x = false) :
    ∃ i, i < reg.rectangles.length ∧
      (∀ j, j < reg.rectangles.length →
        DirtyRegion.growth reg.rectangles b i ≤ DirtyRegion.growth reg.rectangles b j) ∧
      (∀ j, j < i →
        DirtyRegion.growth reg.rectangles b i < DirtyRegion.growth reg.rectangles b j) ∧
      (reg.add_box b).rectangles =
        reg.rectangles.set i ((reg.rectangles.getD i default).union b) := by
  have hloop := addBoxLoop_of_free b reg.rectangles.length 0 reg.rectangles (by omega) hfree
  obtain ⟨l⟩ := reg
  simp only at hlen hloop ⊢
  obtain ⟨r0, r1, r2, rfl⟩ := List.length_eq_three.mp hlen
  unfold DirtyRegion.add_box
  simp only [hbe, Bool.false_eq_true, if_false, hloop]
  have h33 : ¬ ([r0, r1, r2].length < DirtyRegion.MAX_COUNT) := by
    simp [DirtyRegion.MAX_COUNT]
  rw [if_neg h33]
  have hg : DirtyRegion.growthList [r0, r1, r2] b =
      [(0, DirtyRegion.growth [r0, r1, r2] b 0), (1, DirtyRegion.growth [r0, r1, r2] b 1),
        (2, DirtyRegion.growth [r0, r1, r2] b 2)] := rfl
  rw [hg]
  by_cases h01 : DirtyRegion.growth [r0, r1, r2] b 0 > DirtyRegion.growth [r0, r1, r2] b 1
  · by_cases h12 : DirtyRegion.growth [r0, r1, r2] b 1 > DirtyRegion.growth [r0, r1, r2] b 2
    · simp only [minByFirst, List.foldl_cons, List.foldl_nil, if_pos h01, if_pos h12]
      refine ⟨2, by simp, ?_, ?_, rfl⟩
      · intro j hj
        simp only [List.length_cons, List.length_nil] at hj
        interval_cases j <;> omega
      · intro j hj
        interval_cases j <;> omega
    · simp only [minByFirst, List.foldl_cons, List.foldl_nil, if_pos h01, if_neg h12]
      refine ⟨1, by simp, ?_, ?_, rfl⟩
      · intro j hj
        simp only [List.length_cons, List.length_nil] at hj
        interval_cases j <;> omega
      · intro j hj
        interval_cases j <;> omega
  · by_cases h02 : DirtyRegion.growth [r0, r1, r2] b 0 > DirtyRegion.growth [r0, r1, r2] b 2
    · simp only [minByFirst, List.foldl_cons, List.foldl_nil, if_neg h01, if_pos h02]
      refine ⟨2, by simp, ?_, ?_, rfl⟩
      · intro j hj
        simp only [List.length_cons, List.length_nil] at hj
        interval_cases j <;> omega
      · intro j hj
        interval_cases j <;> omega
    · simp only [minByFirst, List.foldl_cons, List.foldl_nil, if_neg h01, if_neg h02]
      refine ⟨0, by simp, ?_, ?_, rfl⟩
      · intro j hj
        simp only [List.length_cons, List.length_nil] at hj
        interval_cases j <;> omega
      · intro j hj
        omega

/-- C2 witness: a concrete full region and a disjoint box; the union is
merged into the stored box of minimal area growth (index 0). -/
theorem claim_C2_witness :
    ((DirtyRegion.mk [⟨0, 0, 2, 2⟩, ⟨10, 0, 12, 2⟩, ⟨0, 10, 2, 12⟩]).rectangles.length =
        DirtyRegion.MAX_COUNT ∧
      (Box2D.mk 3 0 5 2).is_empty = false) ∧
    ∃ i, i < (DirtyRegion.mk [⟨0, 0, 2, 2⟩, ⟨10, 0, 12, 2⟩, ⟨0, 10, 2, 12⟩]).rectangles.length ∧
      (∀ j, j < (DirtyRegion.mk [⟨0, 0, 2, 2⟩, ⟨10, 0, 12, 2⟩, ⟨0, 10, 2, 12⟩]).rectangles.length →
        DirtyRegion.growth (DirtyRegion.mk [⟨0, 0, 2, 2⟩, ⟨10, 0, 12, 2⟩,
          ⟨0, 10, 2, 12⟩]).rectangles ⟨3, 0, 5, 2⟩ i ≤
          DirtyRegion.growth (DirtyRegion.mk [⟨0, 0, 2, 2⟩, ⟨10, 0, 12, 2⟩,
            ⟨0, 10, 2, 12⟩]).rectangles ⟨3, 0, 5, 2⟩ j) ∧
      (∀ j, j < i →
        DirtyRegion.growth (DirtyRegion.mk [⟨0, 0, 2, 2⟩, ⟨10, 0, 12, 2⟩,
          ⟨0, 10, 2, 12⟩]).rectangles ⟨3, 0, 5, 2⟩ i <
          DirtyRegion.growth (DirtyRegion.mk [⟨0, 0, 2, 2⟩, ⟨10, 0, 12, 2⟩,
            ⟨0, 10, 2, 12⟩]).rectangles ⟨3, 0, 5, 2⟩ j) ∧
      ((DirtyRegion.mk [⟨0, 0, 2, 2⟩, ⟨10, 0, 12, 2⟩, ⟨0, 10, 2, 12⟩]).add_box
          ⟨3, 0, 5, 2⟩).rectangles =
        (DirtyRegion.mk [⟨0, 0, 2, 2⟩, ⟨10, 0, 12, 2⟩, ⟨0, 10, 2, 12⟩]).rectangles.set i
          (((DirtyRegion.mk [⟨0, 0, 2, 2⟩, ⟨10, 0, 12, 2⟩,
            ⟨0, 10, 2, 12⟩]).rectangles.getD i default).union ⟨3, 0, 5, 2⟩) :=
  ⟨⟨by decide, by decide⟩, claim_C2 _ _ (by decide) (by decide) (by decide)⟩

/-- C3 (corrected, amended): `add_box` preserves invariant (b) — no stored
box contains another — whenever the region holds fewer than `MAX_COUNT`
boxes; the merge branch taken on a full region can violate it. -/
theorem claim_C3 (reg : DirtyRegion) (b : Box2D)
    (hlen : reg.rectangles.length < DirtyRegion.MAX_COUNT)
    (hinv : reg.NoStoredContains) : (reg.add_box b).NoStoredContains := by
  unfold DirtyRegion.NoStoredContains at *
  unfold DirtyRegion.add_box
  by_cases hbe : b.is_empty = true
  · rw [if_pos hbe]
    exact hinv
  · rw [if_neg hbe]
    cases hloop : DirtyRegion.addBoxLoop b reg.rectangles.length reg.rectangles 0 with
    | none => exact hinv
    | some l =>
      dsimp only
      obtain ⟨removed, hperm, hrem, hsurv⟩ := addBoxLoop_run_some b reg.rectangles l hloop
      have hlen' : l.length < DirtyRegion.MAX_COUNT := by
        have := hperm.length_eq
        simp only [List.length_append] at this
        omega
      rw [if_pos hlen']
      show (l ++ [b]).Pairwise noContainPair
      have hpl : (l ++ removed).Pairwise noContainPair :=
        (hperm.pairwise_iff (fun h => ⟨h.2, h.1⟩)).mp hinv
      have hl : l.Pairwise noContainPair := (List.pairwise_append.mp hpl).1
      refine List.pairwise_append.mpr ⟨hl, by simp, ?_⟩
      intro x hx y hy
      rw [List.mem_singleton.mp hy]
      exact hsurv x hx

/-- C3 counterexample: a region built by three adds satisfies invariants (a)
and (b), yet one further `add_box` (taking the merge branch) leaves a stored
box containing another stored box. -/
theorem claim_C3_counterexample :
    ((((DirtyRegion.fromRect ⟨0, 0, 20, 2⟩).add_box ⟨0, 0, 2, 4⟩).add_box
        ⟨2000, 2000, 2002, 2002⟩).NoStoredContains ∧
      (((DirtyRegion.fromRect ⟨0, 0, 20, 2⟩).add_box ⟨0, 0, 2, 4⟩).add_box
        ⟨2000, 2000, 2002, 2002⟩).NoEmptyStored) ∧
    ¬ ((((DirtyRegion.fromRect ⟨0, 0, 20, 2⟩).add_box ⟨0, 0, 2, 4⟩).add_box
        ⟨2000, 2000, 2002, 2002⟩).add_box ⟨0, 3, 20, 6⟩).NoStoredContains := by
  decide

/-- C3 witness: a two-box region with no mutual containment stays
containment-free after an add. -/
theorem claim_C3_witness :
    (DirtyRegion.mk [⟨0, 0, 1, 1⟩, ⟨5, 5, 6, 6⟩]).rectangles.length <
        DirtyRegion.MAX_COUNT ∧
      ((DirtyRegion.mk [⟨0, 0, 1, 1⟩, ⟨5, 5, 6, 6⟩]).add_box
        ⟨10, 10, 11, 11⟩).NoStoredContains :=
  ⟨by decide, claim_C3 _ _ (by decide) (by decide)⟩

/-- The bounding box of a fold of `add_rect` both grows monotonically and
covers each added rect. -/
theorem foldl_add_rect_covers (rs : List LogicalRect) :
    ∀ reg : DirtyRegion,
      (∀ x : Box2D, reg.boundingBox.contains_box x = true →
        ((rs.foldl DirtyRegion.add_rect reg).boundingBox).contains_box x = true) ∧
      (∀ r ∈ rs,
        ((rs.foldl DirtyRegion.add_rect reg).boundingBox).contains_box r.to_box2d = true) := by
  induction rs with
  | nil =>
    intro reg
    exact ⟨fun x hx => hx, by simp⟩
  | cons r tl ih =>
    intro reg
    simp only [List.foldl_cons]
    constructor
    · intro x hx
      refine (ih (reg.add_rect r)).1 x ?_
      exact Box2D.contains_box_trans (DirtyRegion.boundingBox_mono_add reg r.to_box2d) hx
    · intro r' hr'
      rcases List.mem_cons.mp hr' with rfl | hr''
      · exact (ih (reg.add_rect r')).1 r'.to_box2d
          (DirtyRegion.add_box_covers_new reg r'.to_box2d)
      · exact (ih (reg.add_rect r)).2 r' hr''

/-- C4: for every sequence of `add_rect` calls starting from the default
region, the resulting `bounding_rect` contains every added rectangle. -/
theorem claim_C4 (rs : List LogicalRect) (r : LogicalRect) (hr : r ∈ rs) :
    ((rs.foldl DirtyRegion.add_rect default).bounding_rect).contains_rect r = true := by
  rw [LogicalRect.contains_rect_iff_box]
  unfold DirtyRegion.bounding_rect
  rw [Box2D.to_rect_to_box2d]
  exact (foldl_add_rect_covers rs default).2 r hr

/-- C4 witness: the bounding rect of a concrete two-rect region contains the
second added rect. -/
theorem claim_C4_witness :
    (LogicalRect.mk 5 5 1 1) ∈ [LogicalRect.mk 0 0 2 2, LogicalRect.mk 5 5 1 1] ∧
      ((([LogicalRect.mk 0 0 2 2, LogicalRect.mk 5 5 1 1].foldl DirtyRegion.add_rect
        default).bounding_rect).contains_rect ⟨5, 5, 1, 1⟩ = true) :=
  ⟨by decide, claim_C4 _ _ (by decide)⟩

/-- C5: with `force_screen_refresh` set, `apply_dirty_region` returns as
`region_to_repaint` the region built from the full window rectangle,
independently of what the dirty-region pass accumulated and of any buffer
dirtiness. -/
theorem claim_C5 (accumulated_dirty_region : DirtyRegion) (logical_window_size : Int × Int)
    (dirty_region_of_existing_buffer : Option DirtyRegion) :
    (apply_dirty_region accumulated_dirty_region true logical_window_size
        dirty_region_of_existing_buffer).region_to_repaint =
      DirtyRegion.fromRect
        (LogicalRect.from_size logical_window_size.1 logical_window_size.2) := rfl

/-- C6: when `filter_item` reports `do_draw = false`, the item's render
operation is still invoked if the item clips its children or is a BoxShadow;
otherwise its own draw is skipped while its children are still visited. -/
theorem claim_C6 (clips_children is_box_shadow : Bool) (render_result : RenderingResult) :
    ((clips_children || is_box_shadow) = true →
      (render_item_children_step false clips_children is_box_shadow
        render_result).render_invoked = true) ∧
    ((clips_children || is_box_shadow) = false →
      (render_item_children_step false clips_children is_box_shadow
          render_result).render_invoked = false ∧
        (render_item_children_step false clips_children is_box_shadow
          render_result).children_visited = true) := by
  constructor
  · intro h
    simp [render_item_children_step, h]
  · intro h
    simp only [Bool.or_eq_false_iff] at h
    simp [render_item_children_step, h.1, h.2]

/-- C6 witness: a clipping item with a false filter verdict is rendered; a
plain item with a false verdict is skipped but its children visited. -/
theorem claim_C6_witness :
    (render_item_children_step false true false
        RenderingResult.ContinueRenderingWithoutChildren).render_invoked = true ∧
      (render_item_children_step false false false
          RenderingResult.ContinueRenderingChildren).render_invoked = false ∧
        (render_item_children_step false false false
          RenderingResult.ContinueRenderingChildren).children_visited = true :=
  ⟨(claim_C6 true false RenderingResult.ContinueRenderingWithoutChildren).1 (by decide),
    ((claim_C6 false false RenderingResult.ContinueRenderingChildren).2 (by decide)).1,
    ((claim_C6 false false RenderingResult.ContinueRenderingChildren).2 (by decide)).2⟩

/-- C7: a handle whose generation differs from the cache's current generation
yields `none` from `get_entry`, regardless of its index and of the slots. -/
theorem claim_C7 {T : Type} (self : CachedRenderingData) (cache : RenderingCache T)
    (h : self.cache_generation ≠ cache.generation) : self.get_entry cache = none := by
  unfold CachedRenderingData.get_entry
  rw [if_neg h]

/-- C7 witness: a concrete stale handle over an occupied slot. -/
theorem claim_C7_witness :
    CachedRenderingData.get_entry (T := Nat) ⟨5, 2⟩
      ⟨fun i => if i = 5 then some 99 else none, 7⟩ = none :=
  claim_C7 _ _ (by decide)

/-- C8: the bounding rect of `region.intersection r` is contained in the
intersection of `region.bounding_rect()` with `r`. -/
theorem claim_C8 (reg : DirtyRegion) (r : LogicalRect) :
    (Box2D.intersection_unchecked reg.bounding_rect.to_box2d r.to_box2d).contains_box
      ((reg.intersection r).bounding_rect.to_box2d) = true := by
  unfold DirtyRegion.bounding_rect
  rw [Box2D.to_rect_to_box2d, Box2D.to_rect_to_box2d]
  apply DirtyRegion.boundingBox_le
  intro x hx
  have hx' : x ∈ DirtyRegion.intersectLoop r.to_box2d reg.rectangles.length
      reg.rectangles 0 := hx
  have hq := intersectLoop_spec r.to_box2d
    (fun y => reg.boundingBox.contains_box y = true)
    (fun y => reg.boundingBox.contains_box y = true ∧ r.to_box2d.contains_box y = true)
    (fun y rr hy hsome => by
      rw [Box2D.intersection_eq_some hsome]
      exact ⟨Box2D.contains_box_trans hy (Box2D.inter_le_left y r.to_box2d),
        Box2D.inter_le_right y r.to_box2d⟩)
    reg.rectangles.length 0 reg.rectangles (by omega)
    (fun j hj => ⟨fun hji => by omega, fun _ =>
      reg.boundingBox_contains_mem _ (List.getElem_mem hj)⟩)
    x hx'
  exact Box2D.le_inter hq.1 hq.2

/-- C9: after a `release` that returns a value from a cache with non-zero
generation, the handle generation is zeroed, so a second `release` of the
updated handle against the updated cache returns `none` and leaves both
unchanged. -/
theorem claim_C9 {T : Type} (self : CachedRenderingData) (cache : RenderingCache T) (v : T)
    (hgen : cache.generation ≠ 0)
    (hsome : (self.release cache).2.2 = some v) :
    (self.release cache).1.cache_generation = 0 ∧
      (self.release cache).1.release (self.release cache).2.1 =
        ((self.release cache).1, (self.release cache).2.1, none) := by
  by_cases h : self.cache_generation = cache.generation
  · unfold CachedRenderingData.release
    rw [if_pos h]
    constructor
    · rfl
    · rw [if_neg ?_]
      intro hc
      simp only [RenderingCache.remove] at hc
      exact hgen hc.symm
  · exfalso
    unfold CachedRenderingData.release at hsome
    rw [if_neg h] at hsome
    cases hsome

/-- C9 witness: a concrete valid handle released from a generation-7 cache. -/
theorem claim_C9_witness :
    (CachedRenderingData.release (T := Nat) ⟨2, 7⟩
        ⟨fun i => if i = 2 then some 42 else none, 7⟩).1.cache_generation = 0 ∧
      (CachedRenderingData.release (T := Nat) ⟨2, 7⟩
          ⟨fun i => if i = 2 then some 42 else none, 7⟩).1.release
          (CachedRenderingData.release (T := Nat) ⟨2, 7⟩
            ⟨fun i => if i = 2 then some 42 else none, 7⟩).2.1 =
        ((CachedRenderingData.release (T := Nat) ⟨2, 7⟩
            ⟨fun i => if i = 2 then some 42 else none, 7⟩).1,
          (CachedRenderingData.release (T := Nat) ⟨2, 7⟩
            ⟨fun i => if i = 2 then some 42 else none, 7⟩).2.1, none) :=
  claim_C9 ⟨2, 7⟩ ⟨fun i => if i = 2 then some 42 else none, 7⟩ 42 (by decide) rfl

/-- C10: the minimal-area-growth selection in `add_box` cannot fail — when
the surviving list is full (the merge branch), the growth list is non-empty,
so the min-by fold returns a value and the source's `unwrap`/`expect` are
unreachable (comparisons are total on exact coordinates). -/
theorem claim_C10 (reg : DirtyRegion) (b : Box2D) (l : List Box2D)
    (hloop : DirtyRegion.addBoxLoop b reg.rectangles.length reg.rectangles 0 = some l)
    (hfull : ¬ l.length < DirtyRegion.MAX_COUNT) :
    (minByFirst (DirtyRegion.growthList l b)).isSome = true := by
  cases hg : DirtyRegion.growthList l b with
  | nil =>
    exfalso
    have hlen := congrArg List.length hg
    unfold DirtyRegion.growthList at hlen
    simp only [List.length_map, List.length_range, List.length_nil] at hlen
    rw [hlen] at hfull
    exact hfull (by decide)
  | cons p tl => rfl

/-- C10 witness: a full concrete region reaching the merge branch. -/
theorem claim_C10_witness :
    DirtyRegion.addBoxLoop ⟨30, 30, 31, 31⟩
        (DirtyRegion.mk [⟨0, 0, 1, 1⟩, ⟨10, 10, 11, 11⟩, ⟨20, 20, 21, 21⟩]).rectangles.length
        (DirtyRegion.mk [⟨0, 0, 1, 1⟩, ⟨10, 10, 11, 11⟩, ⟨20, 20, 21, 21⟩]).rectangles 0 =
        some [⟨0, 0, 1, 1⟩, ⟨10, 10, 11, 11⟩, ⟨20, 20, 21, 21⟩] ∧
      (minByFirst (DirtyRegion.growthList [⟨0, 0, 1, 1⟩, ⟨10, 10, 11, 11⟩,
        ⟨20, 20, 21, 21⟩] ⟨30, 30, 31, 31⟩)).isSome = true :=
  ⟨by decide, claim_C10 (DirtyRegion.mk [⟨0, 0, 1, 1⟩, ⟨10, 10, 11, 11⟩, ⟨20, 20, 21, 21⟩])
    ⟨30, 30, 31, 31⟩ _ (by decide) (by decide)⟩
